import Mathlib

/-!
Verification development for `duecredit/versions.py` — a lazy, memoizing
registry of versions of external modules.

The file shallowly embeds:
  * the dynamically-typed Python values that can appear as a module's
    version attribute (`PyVal`), with Python truthiness and `str()`;
  * the external `distutils.version` parsers (`StrictVersion`,
    `LooseVersion`) that the module imports and relies on;
  * the `UnknownVersion` sentinel with Python's rich-comparison dispatch;
  * `ExternalVersions._deduce_version`, `__getitem__`, `__contains__`,
    the `versions` property and `dumps`, with explicit state passing and
    an explicit log of calls to the import / package-metadata capabilities.
-/

/-- Model of Python `sep.join(items)`. -/
def joinSep (sep : String) : List String → String
  | [] => ""
  | [x] => x
  | x :: y :: rest => x ++ sep ++ joinSep sep (y :: rest)

/-- Concatenation of a list of strings (plain `"".join`). -/
def concatStrs : List String → String
  | [] => ""
  | x :: xs => x ++ concatStrs xs

/-- Dynamically-typed Python values that can show up as the value of a
module's version attribute: `None`, strings, integers, tuples and lists. -/
inductive PyVal where
  | none
  | str (s : String)
  | int (n : Int)
  | tuple (xs : List PyVal)
  | list (xs : List PyVal)

/-- Python truthiness (`bool(v)`): `None`, `""`, `0` and empty sequences
are falsy; everything else here is truthy. -/
def pyTruthy : PyVal → Bool
  | PyVal.none => false
  | PyVal.str s => decide (s ≠ "")
  | PyVal.int n => decide (n ≠ 0)
  | PyVal.tuple [] => false
  | PyVal.tuple (_ :: _) => true
  | PyVal.list [] => false
  | PyVal.list (_ :: _) => true

/-- Nesting depth of a value, used as recursion fuel for `pyRepr`. -/
def pyDepth : PyVal → Nat
  | PyVal.none => 1
  | PyVal.str _ => 1
  | PyVal.int _ => 1
  | PyVal.tuple xs => 1 + (xs.attach.map (fun x => pyDepth x.val)).foldr max 0
  | PyVal.list xs => 1 + (xs.attach.map (fun x => pyDepth x.val)).foldr max 0
termination_by v => sizeOf v
decreasing_by
  all_goals
    simp only [PyVal.tuple.sizeOf_spec, PyVal.list.sizeOf_spec]
    have := List.sizeOf_lt_of_mem x.property
    omega

/-- Fuelled worker for `pyRepr`: the value is examined first, so atomic
values render independently of the fuel; each nesting level consumes one
fuel unit, and `pyDepth` fuel always suffices, making the out-of-fuel
case unreachable. -/
def pyReprAux : Nat → PyVal → String
  | fuel, v =>
    match v with
    | PyVal.none => "None"
    | PyVal.str s => "\x27" ++ s ++ "\x27"
    | PyVal.int n => toString n
    | PyVal.tuple xs =>
      match fuel, xs with
      | f + 1, [x] => "(" ++ pyReprAux f x ++ ",)"
      | f + 1, ys => "(" ++ joinSep ", " (ys.map (pyReprAux f)) ++ ")"
      | 0, _ => ""
    | PyVal.list xs =>
      match fuel, xs with
      | f + 1, ys => "[" ++ joinSep ", " (ys.map (pyReprAux f)) ++ "]"
      | 0, _ => ""

/-- Python `repr` of a value (quoting of special characters inside string
literals is not modelled; no claim exercises it). -/
def pyRepr (v : PyVal) : String := pyReprAux (pyDepth v) v

/-- Python `str(v)`: for strings, the string itself; `None` and ints
print directly; tuples and lists print as their repr. -/
def pyStr : PyVal → String
  | PyVal.none => "None"
  | PyVal.str s => s
  | PyVal.int n => toString n
  | v => pyRepr v

/-- Python exception classes that the embedded code can raise or catch. -/
inductive PyError where
  | valueError (msg : String)
  | typeError (msg : String)
deriving DecidableEq, Repr

/-- A parsed `distutils.version.StrictVersion`: the numeric `version`
triple plus the optional `(letter, number)` prerelease pair. -/
structure StrictV where
  major : Nat
  minor : Nat
  patch : Nat
  prerelease : Option (Char × Nat)
deriving DecidableEq, Repr

/-- Longest digit prefix of a character list, with the remainder. -/
def takeDigits : List Char → List Char × List Char
  | [] => ([], [])
  | c :: cs =>
    if c.isDigit then
      let (d, r) := takeDigits cs
      (c :: d, r)
    else ([], c :: cs)

/-- Numeric value of a digit run (`int` on a decimal digit string). -/
def digitsVal (ds : List Char) : Nat :=
  ds.foldl (fun a c => a * 10 + (c.toNat - 48)) 0

/-- Matcher for `StrictVersion.version_re`, the anchored regex
`(\d+) \. (\d+) (\. (\d+))? ([ab](\d+))?` over the whole string; returns
the parsed components or `none` when the string does not match.  The
greedy deterministic scan below is equivalent to the regex on this
grammar (no alternative needs backtracking).  Python's `$` also matching
before one trailing newline is not modelled; no claim exercises it. -/
def strictParseChars (cs : List Char) : Option StrictV :=
  let (d1, r1) := takeDigits cs
  if d1.isEmpty then Option.none
  else
    match r1 with
    | '.' :: r2 =>
      let (d2, r3) := takeDigits r2
      if d2.isEmpty then Option.none
      else
        let patchPart : Option (Nat × List Char) :=
          match r3 with
          | '.' :: r4 =>
            let (d3, r5) := takeDigits r4
            if d3.isEmpty then Option.none else some (digitsVal d3, r5)
          | r => some (0, r)
        match patchPart with
        | Option.none => Option.none
        | some (p, r5) =>
          match r5 with
          | [] => some ⟨digitsVal d1, digitsVal d2, p, Option.none⟩
          | c :: r6 =>
            if c = 'a' ∨ c = 'b' then
              let (d4, r7) := takeDigits r6
              if d4.isEmpty ∨ ¬ r7.isEmpty then Option.none
              else some ⟨digitsVal d1, digitsVal d2, p, some (c, digitsVal d4)⟩
            else Option.none
    | _ => Option.none

/-- A token of a `LooseVersion`: a numeric component or a string one. -/
inductive LooseTok where
  | num (n : Nat)
  | txt (t : String)
deriving DecidableEq, Repr

/-- Character kinds driving `LooseVersion.component_re`
(`(\d+ | [a-z]+ | \.)`): 0 digits, 1 ASCII lowercase, 2 the dot,
3 everything else (kept as separator text by `re.split`). -/
def charKind (c : Char) : Nat :=
  if c.isDigit then 0
  else if 'a' ≤ c ∧ c ≤ 'z' then 1
  else if c = '.' then 2
  else 3

/-- Longest prefix of characters of the given kind, with the remainder. -/
def takeRun (k : Nat) : List Char → List Char × List Char
  | [] => ([], [])
  | c :: cs =>
    if charKind c = k then
      let (r, rest) := takeRun k cs
      (c :: r, rest)
    else ([], c :: cs)

/-- Fuelled worker for `looseTokenize` (each step consumes at least one
character, so fuel = length suffices). -/
def looseTokenizeAux : Nat → List Char → List LooseTok
  | 0, _ => []
  | _, [] => []
  | fuel + 1, c :: cs =>
    let k := charKind c
    let (r, rest) := takeRun k cs
    let toks := looseTokenizeAux fuel rest
    if k = 0 then LooseTok.num (digitsVal (c :: r)) :: toks
    else if k = 2 then toks
    else LooseTok.txt (String.mk (c :: r)) :: toks

/-- `LooseVersion.parse` tokenization: split on digit runs, lowercase
runs and dots; drop empty pieces and dots; convert digit runs to ints;
keep everything else (including separator runs such as `-`) as strings. -/
def looseTokenize (cs : List Char) : List LooseTok :=
  looseTokenizeAux cs.length cs

/-- A `distutils.version.LooseVersion`: the original `vstring` (used by
`__str__`) and the token list `version` (used by comparisons). -/
structure LooseV where
  vstring : String
  version : List LooseTok
deriving DecidableEq, Repr

/-- Building `LooseVersion(s)` for a truthy string `s`: store the string
and tokenize it.  This never fails, on any string. -/
def LooseVersion.make (s : String) : LooseV :=
  ⟨s, looseTokenize s.toList⟩

/-- The values stored in the registry cache: a strict version, a loose
version, or the UNKNOWN sentinel (the class attribute
`ExternalVersions.UNKNOWN`, a single `UnknownVersion()` instance). -/
inductive VersionValue where
  | strict (v : StrictV)
  | loose (v : LooseV)
  | unknown
deriving DecidableEq, Repr

/-- `StrictVersion.__str__`: drop the patch component when it is zero,
then append the prerelease letter and number when present. -/
def StrictV.str (v : StrictV) : String :=
  let base :=
    if v.patch = 0 then toString v.major ++ "." ++ toString v.minor
    else toString v.major ++ "." ++ toString v.minor ++ "." ++ toString v.patch
  match v.prerelease with
  | some (c, n) => base ++ String.mk [c] ++ toString n
  | Option.none => base

/-- String form of a cached value: `StrictVersion.__str__`,
`LooseVersion.__str__` (the stored `vstring`), or
`UnknownVersion.__str__` (the literal `UNKNOWN`). -/
def VersionValue.str : VersionValue → String
  | VersionValue.strict v => v.str
  | VersionValue.loose v => v.vstring
  | VersionValue.unknown => "UNKNOWN"

/-- Object identity in the model: Python objects are told apart by id.
The singleton `ExternalVersions.UNKNOWN` instance carries id 0; every
other object in a program run has a different id. -/
def UNKNOWNId : Nat := 0

/-- `UnknownVersion.__eq__`: `True` when `other is self`, otherwise a
`TypeError` is raised (never `False`). -/
def UnknownVersion.eqMethod (selfId otherId : Nat) : Except PyError Bool :=
  if otherId = selfId then Except.ok true
  else Except.error (PyError.typeError "UNKNOWN version is not comparable")

/-- An ordering operator applied by a caller (`<` or `>`). -/
inductive OrdOp where
  | lt
  | gt
deriving DecidableEq, Repr

/-- The reflected operator Python tries on the right operand. -/
def OrdOp.reflected : OrdOp → OrdOp
  | OrdOp.lt => OrdOp.gt
  | OrdOp.gt => OrdOp.lt

/-- Truth of an operator given a three-way comparison outcome. -/
def OrdOp.eval : OrdOp → Ordering → Bool
  | OrdOp.lt, o => decide (o = Ordering.lt)
  | OrdOp.gt, o => decide (o = Ordering.gt)

/-- Lexicographic comparison of the numeric `version` triples of two
strict versions (Python tuple comparison in `StrictVersion._cmp`). -/
def StrictV.versionTupleCmp (a b : StrictV) : Ordering :=
  match compare a.major b.major with
  | Ordering.eq =>
    match compare a.minor b.minor with
    | Ordering.eq => compare a.patch b.patch
    | o => o
  | o => o

/-- Comparison of the `prerelease` fields in `StrictVersion._cmp`: a
version without a prerelease sorts after one with a prerelease; two
prerelease pairs compare as Python tuples (letter, then number). -/
def prereleaseCmp : Option (Char × Nat) → Option (Char × Nat) → Ordering
  | Option.none, Option.none => Ordering.eq
  | some _, Option.none => Ordering.lt
  | Option.none, some _ => Ordering.gt
  | some (c1, n1), some (c2, n2) =>
    match compare c1 c2 with
    | Ordering.eq => compare n1 n2
    | o => o

/-- `StrictVersion._cmp` between two strict versions: compare the
numeric triples, then the prerelease fields. -/
def StrictV.cmp (a b : StrictV) : Ordering :=
  match StrictV.versionTupleCmp a b with
  | Ordering.eq => prereleaseCmp a.prerelease b.prerelease
  | o => o

/-- Python list `<` on loose-version token lists: find the first index
where the elements differ (via `==`, which never raises) and compare
there with `<`, which raises a `TypeError` on an int/str mix; with no
differing index the shorter list is smaller. -/
def looseTokLt : List LooseTok → List LooseTok → Except PyError Bool
  | [], [] => Except.ok false
  | [], _ :: _ => Except.ok true
  | _ :: _, [] => Except.ok false
  | x :: xs, y :: ys =>
    if x = y then looseTokLt xs ys
    else
      match x, y with
      | LooseTok.num a, LooseTok.num b => Except.ok (decide (a < b))
      | LooseTok.txt a, LooseTok.txt b => Except.ok (decide (a < b))
      | _, _ =>
        Except.error (PyError.typeError "comparison not supported between int and str")

/-- `LooseVersion._cmp` between two loose versions: equal token lists
compare equal; otherwise Python evaluates `self.version < other.version`
(and then `>`), which can itself raise on mixed token types. -/
def LooseV.cmpE (a b : LooseV) : Except PyError Ordering :=
  if a.version = b.version then Except.ok Ordering.eq
  else
    match looseTokLt a.version b.version with
    | Except.error e => Except.error e
    | Except.ok true => Except.ok Ordering.lt
    | Except.ok false => Except.ok Ordering.gt

/-- The version-valued operands an ordering comparison can involve in
this module: the UNKNOWN sentinel (with its object id), a strict
version, or a loose version. -/
inductive PyOperand where
  | unknownObj (id : Nat)
  | strictObj (v : StrictV)
  | looseObj (v : LooseV)

/-- Outcome of `a.__op__(b)` for the operand kinds above, `none` meaning
the method does not exist or returned `NotImplemented`:
`UnknownVersion` defines no ordering methods at all; `StrictVersion._cmp`
and `LooseVersion._cmp` return `NotImplemented` for any operand that is
neither a `str` nor an instance of the same class (so in particular for
the sentinel and for the sibling class). -/
def versionOrdMethod (op : OrdOp) (a b : PyOperand) : Option (Except PyError Bool) :=
  match a with
  | PyOperand.unknownObj _ => Option.none
  | PyOperand.strictObj v =>
    match b with
    | PyOperand.strictObj w => some (Except.ok (op.eval (StrictV.cmp v w)))
    | _ => Option.none
  | PyOperand.looseObj v =>
    match b with
    | PyOperand.looseObj w =>
      some
        (match LooseV.cmpE v w with
         | Except.ok o => Except.ok (op.eval o)
         | Except.error e => Except.error e)
    | _ => Option.none

/-- Python's rich-comparison dispatch for `a < b` / `a > b`: try the
operator on the left operand, then the reflected operator on the right
operand; when both are missing or `NotImplemented`, raise `TypeError`. -/
def pyRichCompare (op : OrdOp) (a b : PyOperand) : Except PyError Bool :=
  match versionOrdMethod op a b with
  | some r => r
  | Option.none =>
    match versionOrdMethod op.reflected b a with
    | some r => r
    | Option.none =>
      Except.error (PyError.typeError "ordering not supported between these instances")

/-- A loaded module handle, as `_deduce_version` sees it: its
`__name__` and its (possibly absent) `__version__` and `version`
attributes. -/
structure PyModule where
  name : String
  dunderVersionAttr : Option PyVal
  versionAttr : Option PyVal

/-- The attribute-probing loop of `_deduce_version`: walk
`('__version__', 'version')`, take the first attribute that is present
(`hasattr`) and stop; `version` stays `None` when neither exists. -/
def probedAttr (m : PyModule) : PyVal :=
  match m.dunderVersionAttr with
  | some v => v
  | Option.none =>
    match m.versionAttr with
    | some v => v
    | Option.none => PyVal.none

/-- Sequence normalization in `_deduce_version`: a tuple or list value
is replaced by its elements' `str()` forms joined with `.`; everything
else is left alone. -/
def joinSeq : PyVal → PyVal
  | PyVal.tuple xs => PyVal.str (joinSep "." (xs.map pyStr))
  | PyVal.list xs => PyVal.str (joinSep "." (xs.map pyStr))
  | v => v

/-- The module-name to distribution-name alias table,
`{'citeproc': 'citeproc-py'}.get(modname, modname)`. -/
def distAlias (n : String) : String :=
  if n = "citeproc" then "citeproc-py" else n

/-- The package-metadata lookup capability (`importlib.metadata.version`):
returns a version string or fails with some exception. -/
def MetaCap : Type := String → Except Unit String

/-- A call to one of the external capabilities, for stating that the
code does (or does not) invoke them. -/
inductive CapCall where
  | importCall (name : String)
  | metaCall (distName : String)
deriving DecidableEq, Repr

/-- `ExternalVersions._deduce_version`, with a log of metadata-capability
calls.  Steps: probe the version attributes; join a tuple/list value
with dots; if the value is falsy, query `metadata_version` on the
aliased module name, swallowing any failure; if a truthy value resulted,
build `StrictVersion(version)` — which raises `TypeError` (uncaught, as
only `ValueError` is handled) when the value is not a string, succeeds
on a matching string, and raises the caught `ValueError` otherwise, in
which case `LooseVersion(version)` is returned; with no truthy value,
return the UNKNOWN sentinel. -/
def deduceVersionL (meta : MetaCap) (m : PyModule) :
    Except PyError VersionValue × List CapCall :=
  let v0 := joinSeq (probedAttr m)
  let queried := distAlias m.name
  let step : PyVal × List CapCall :=
    if pyTruthy v0 then (v0, [])
    else
      match meta queried with
      | Except.ok s => (PyVal.str s, [CapCall.metaCall queried])
      | Except.error _ => (v0, [CapCall.metaCall queried])
  if pyTruthy step.fst then
    match step.fst with
    | PyVal.str s =>
      match strictParseChars s.toList with
      | some sv => (Except.ok (VersionValue.strict sv), step.snd)
      | Option.none => (Except.ok (VersionValue.loose (LooseVersion.make s)), step.snd)
    | _ =>
      (Except.error (PyError.typeError "expected string or bytes-like object"), step.snd)
  else (Except.ok VersionValue.unknown, step.snd)

/-- Result component of `_deduce_version` alone. -/
def deduceVersion (meta : MetaCap) (m : PyModule) : Except PyError VersionValue :=
  (deduceVersionL meta m).fst

/-- The external capabilities `__getitem__` can touch: `sys.modules`,
`__import__`, and the metadata lookup. -/
structure Env where
  sysModules : String → Option PyModule
  importCap : String → Except Unit PyModule
  meta : MetaCap

/-- The registry's mutable state: the `_versions` dict, an
insertion-ordered association list with unique keys. -/
structure RegistryState where
  versions : List (String × VersionValue)
deriving DecidableEq, Repr

/-- Python dict lookup on the association list. -/
def lookupCache (vs : List (String × VersionValue)) (k : String) : Option VersionValue :=
  match vs with
  | [] => Option.none
  | (k1, v) :: rest => if k1 = k then some v else lookupCache rest k

/-- Python dict assignment: overwrite in place, or append a new key. -/
def insertCache (vs : List (String × VersionValue)) (k : String) (v : VersionValue) :
    List (String × VersionValue) :=
  match vs with
  | [] => [(k, v)]
  | (k1, v1) :: rest =>
    if k1 = k then (k1, v) :: rest else (k1, v1) :: insertCache rest k v

/-- The argument of `__getitem__`: a module name string or a live
module handle. -/
inductive GetItemArg where
  | nameArg (s : String)
  | moduleArg (m : PyModule)

/-- The `modname` the code derives from the argument (`module.__name__`
for a handle, the string itself for a name). -/
def GetItemArg.modname : GetItemArg → String
  | GetItemArg.nameArg s => s
  | GetItemArg.moduleArg m => m.name

/-- `ExternalVersions.__getitem__`: on a cache hit return the cached
value; on a miss obtain a handle (reusing `sys.modules`, else importing
— an `ImportError` returns `None` without caching), run
`_deduce_version`, store its result and return it.  The second
component is the state after the call, the third the capability calls
performed. -/
def ExternalVersions.getitem (env : Env) (st : RegistryState) (arg : GetItemArg) :
    Except PyError (Option VersionValue) × RegistryState × List CapCall :=
  let modname := arg.modname
  match lookupCache st.versions modname with
  | some v => (Except.ok (some v), st, [])
  | Option.none =>
    let moduleRes : Except Unit PyModule × List CapCall :=
      match arg with
      | GetItemArg.moduleArg m => (Except.ok m, [])
      | GetItemArg.nameArg _ =>
        match env.sysModules modname with
        | some m => (Except.ok m, [])
        | Option.none =>
          match env.importCap modname with
          | Except.ok m => (Except.ok m, [CapCall.importCall modname])
          | Except.error _ => (Except.error (), [CapCall.importCall modname])
    match moduleRes with
    | (Except.error _, calls) => (Except.ok Option.none, st, calls)
    | (Except.ok m, calls) =>
      match deduceVersionL env.meta m with
      | (Except.ok v, calls2) =>
        (Except.ok (some v), ⟨insertCache st.versions modname v⟩, calls ++ calls2)
      | (Except.error e, calls2) => (Except.error e, st, calls ++ calls2)

/-- `ExternalVersions.__contains__`: a pure cache-membership test. -/
def ExternalVersions.contains (st : RegistryState) (item : String) : Bool :=
  (lookupCache st.versions item).isSome

/-- `ExternalVersions.keys`: the names of the known modules. -/
def ExternalVersions.keys (st : RegistryState) : List String :=
  st.versions.map Prod.fst

/-- The module-level singleton `external_versions = ExternalVersions()`,
with its initially empty `_versions` dict. -/
def external_versions : RegistryState := ⟨[]⟩

/-- The `indent` argument of `dumps`: a bool or a string. -/
inductive IndentArg where
  | ofBool (b : Bool)
  | ofStr (s : String)

/-- Python truthiness of the `indent` argument. -/
def IndentArg.truthy : IndentArg → Bool
  | IndentArg.ofBool b => b
  | IndentArg.ofStr s => decide (s ≠ "")

/-- The `indent_ = ' ' if indent is True else indent` selection: the
boolean `True` means a single space, a string means itself. -/
def IndentArg.indentStr : IndentArg → String
  | IndentArg.ofBool _ => " "
  | IndentArg.ofStr s => s

/-- Lexicographic code-point order on character lists — the order
Python `sorted` applies to the dict keys. -/
def charListLe : List Char → List Char → Bool
  | [], _ => true
  | _ :: _, [] => false
  | c :: cs, d :: ds => if c = d then charListLe cs ds else decide (c < d)

/-- Python string order on the underlying character data. -/
def strKeyLe (a b : String) : Bool := charListLe a.data b.data

/-- Insert an entry into a key-sorted entry list (stable). -/
def insortEntry (x : String × VersionValue) :
    List (String × VersionValue) → List (String × VersionValue)
  | [] => [x]
  | y :: ys => if strKeyLe x.fst y.fst then x :: y :: ys else y :: insortEntry x ys

/-- Stable insertion sort of the cache entries by key: with unique keys
this is exactly iterating `sorted(self._versions)` and indexing the
dict. -/
def sortEntries : List (String × VersionValue) → List (String × VersionValue)
  | [] => []
  | x :: xs => insortEntry x (sortEntries xs)

/-- The `'{}={}'.format(k, self._versions[k]) for k in sorted(...)`
item list of `dumps`. -/
def dumpItems (st : RegistryState) : List String :=
  (sortEntries st.versions).map (fun kv => kv.fst ++ "=" ++ VersionValue.str kv.snd)

/-- `ExternalVersions.dumps`: the preamble followed either by the
space-joined items (falsy `indent`) or by
`(linesep + indent_).join([''] + items) + linesep` (truthy `indent`).
`linesep` (`os.linesep`) is passed explicitly as the platform line
terminator. -/
def ExternalVersions.dumps (st : RegistryState) (linesep : String) (indent : IndentArg)
    (preamble : String) : String :=
  if indent.truthy then
    preamble ++ joinSep (linesep ++ indent.indentStr) ("" :: dumpItems st) ++ linesep
  else
    preamble ++ " " ++ joinSep " " (dumpItems st)

/-- The output of `dumps` as the specification words it: with falsy
`indent`, the preamble followed by the space-joined `name=version`
entries sorted by name; with truthy `indent`, the preamble followed by
one entry per line, each line prefixed with the indent string and
terminated by the platform line terminator.  (Spec-side definition,
for comparison with `ExternalVersions.dumps`.) -/
def dumpsSpec (st : RegistryState) (linesep : String) (indent : IndentArg)
    (preamble : String) : String :=
  if indent.truthy then
    preamble ++ linesep ++
      concatStrs ((dumpItems st).map (fun it => indent.indentStr ++ it ++ linesep))
  else
    preamble ++ " " ++ joinSep " " (dumpItems st)

/-- A heap of dict objects, for stating aliasing properties: cell `r`
holds the contents of the dict object with id `r`. -/
structure DictHeap where
  cells : List (List (String × VersionValue))

/-- Contents of the dict object `r`. -/
def DictHeap.read (h : DictHeap) (r : Nat) : List (String × VersionValue) :=
  h.cells.getD r []

/-- In-place mutation of the dict object `r` by its holder. -/
def DictHeap.write (h : DictHeap) (r : Nat) (d : List (String × VersionValue)) : DictHeap :=
  ⟨h.cells.set r d⟩

/-- Allocation of a fresh dict object. -/
def DictHeap.alloc (h : DictHeap) (d : List (String × VersionValue)) : DictHeap × Nat :=
  (⟨h.cells ++ [d]⟩, h.cells.length)

/-- The `versions` property, `return self._versions.copy()`: allocate a
new dict object holding a copy of the registry's `_versions` contents
and hand that object to the caller. -/
def ExternalVersions.versionsProp (h : DictHeap) (regRef : Nat) : DictHeap × Nat :=
  DictHeap.alloc h (h.read regRef)

/-- A metadata capability that fails on every distribution name. -/
def metaFailCap : MetaCap := fun _ => Except.error ()

/-- An environment with nothing loaded, every import failing and every
metadata lookup failing. -/
def envEmpty : Env :=
  ⟨fun _ => Option.none, fun _ => Except.error (), fun _ => Except.error ()⟩

theorem joinSeq_falsy {v : PyVal} (h : pyTruthy v = false) :
    pyTruthy (joinSeq v) = false := by
  cases v with
  | none => rfl
  | str s => exact h
  | int n => exact h
  | tuple xs => cases xs with
    | nil => rfl
    | cons x xs => exact absurd h (by simp [pyTruthy])
  | list xs => cases xs with
    | nil => rfl
    | cons x xs => exact absurd h (by simp [pyTruthy])

theorem deduceL_falsy_snd (meta : MetaCap) (m : PyModule)
    (h : pyTruthy (joinSeq (probedAttr m)) = false) :
    (deduceVersionL meta m).snd = [CapCall.metaCall (distAlias m.name)] := by
  cases hm : meta (distAlias m.name) with
  | ok s =>
    by_cases hs : pyTruthy (PyVal.str s) = true
    · cases hp : strictParseChars s.data <;>
        simp [deduceVersionL, h, hm, hs, hp, String.toList]
    · simp [deduceVersionL, h, hm, hs]
  | error e => simp [deduceVersionL, h, hm]

theorem deduceL_falsy_meta_error (meta : MetaCap) (m : PyModule)
    (h : pyTruthy (joinSeq (probedAttr m)) = false)
    (he : meta (distAlias m.name) = Except.error ()) :
    (deduceVersionL meta m).fst = Except.ok VersionValue.unknown := by
  unfold deduceVersionL
  simp [h, he]

/-- C1: once the registry has a cached entry for a component name, a
lookup of that name (by name or by handle) returns exactly the cached
value, leaves the cache unchanged, and performs no import-capability or
metadata-capability call — the resolution algorithm does not run. -/
theorem getitem_cached_hit (env : Env) (st : RegistryState) (arg : GetItemArg)
    (v : VersionValue) (h : lookupCache st.versions arg.modname = some v) :
    ExternalVersions.getitem env st arg = (Except.ok (some v), st, []) := by
  unfold ExternalVersions.getitem
  simp [h]

/-- C1 witness: a registry that has cached `numpy` answers a `numpy`
lookup from the cache with no capability call. -/
theorem getitem_cached_hit_witness :
    ExternalVersions.getitem envEmpty ⟨[("numpy", VersionValue.unknown)]⟩
        (GetItemArg.nameArg "numpy")
      = (Except.ok (some VersionValue.unknown), ⟨[("numpy", VersionValue.unknown)]⟩, []) :=
  getitem_cached_hit envEmpty ⟨[("numpy", VersionValue.unknown)]⟩
    (GetItemArg.nameArg "numpy") VersionValue.unknown (by decide)

/-- C3: equality on the UNKNOWN sentinel returns `True` exactly for the
singleton itself and raises a `TypeError` for every other operand; and
every ordering comparison (`<` or `>`) with the sentinel on either side
raises a type error instead of producing an ordering. -/
theorem unknown_eq_and_order (i : Nat) (op : OrdOp) (other : PyOperand)
    (hi : i ≠ UNKNOWNId) :
    UnknownVersion.eqMethod UNKNOWNId UNKNOWNId = Except.ok true
    ∧ UnknownVersion.eqMethod UNKNOWNId i
        = Except.error (PyError.typeError "UNKNOWN version is not comparable")
    ∧ pyRichCompare op (PyOperand.unknownObj UNKNOWNId) other
        = Except.error (PyError.typeError "ordering not supported between these instances")
    ∧ pyRichCompare op other (PyOperand.unknownObj UNKNOWNId)
        = Except.error (PyError.typeError "ordering not supported between these instances") := by
  refine ⟨rfl, ?_, ?_, ?_⟩
  · simp [UnknownVersion.eqMethod, hi]
  · cases other <;> cases op <;> rfl
  · cases other <;> cases op <;> rfl

/-- C3 witness: equality of UNKNOWN with a distinct object raises, and
ordering UNKNOWN against a strict version raises in both directions. -/
theorem unknown_eq_and_order_witness :
    UnknownVersion.eqMethod UNKNOWNId UNKNOWNId = Except.ok true
    ∧ UnknownVersion.eqMethod UNKNOWNId 1
        = Except.error (PyError.typeError "UNKNOWN version is not comparable")
    ∧ pyRichCompare OrdOp.lt (PyOperand.unknownObj UNKNOWNId)
          (PyOperand.strictObj ⟨1, 0, 0, Option.none⟩)
        = Except.error (PyError.typeError "ordering not supported between these instances")
    ∧ pyRichCompare OrdOp.lt (PyOperand.strictObj ⟨1, 0, 0, Option.none⟩)
          (PyOperand.unknownObj UNKNOWNId)
        = Except.error (PyError.typeError "ordering not supported between these instances") :=
  unknown_eq_and_order 1 OrdOp.lt (PyOperand.strictObj ⟨1, 0, 0, Option.none⟩) (by decide)

/-- C4: when a name is uncached, not already loaded, and its import
fails, lookup returns the absent value, the cache is untouched (so
`contains` stays false), and a second lookup attempts the import
again. -/
theorem getitem_import_failure (env : Env) (st : RegistryState) (s : String)
    (h1 : lookupCache st.versions s = Option.none)
    (h2 : env.sysModules s = Option.none)
    (h3 : env.importCap s = Except.error ()) :
    ExternalVersions.getitem env st (GetItemArg.nameArg s)
      = (Except.ok Option.none, st, [CapCall.importCall s])
    ∧ ExternalVersions.contains st s = false
    ∧ (ExternalVersions.getitem env
          (ExternalVersions.getitem env st (GetItemArg.nameArg s)).snd.fst
          (GetItemArg.nameArg s)).snd.snd
        = [CapCall.importCall s] := by
  have hfirst : ExternalVersions.getitem env st (GetItemArg.nameArg s)
      = (Except.ok Option.none, st, [CapCall.importCall s]) := by
    unfold ExternalVersions.getitem
    simp [GetItemArg.modname, h1, h2, h3]
  refine ⟨hfirst, ?_, ?_⟩
  · simp [ExternalVersions.contains, h1]
  · rw [hfirst, hfirst]

/-- C4 witness: in an environment where every import fails, looking up
`numpy` in an empty registry returns absent, caches nothing, and a
repeat lookup re-attempts the import. -/
theorem getitem_import_failure_witness :
    ExternalVersions.getitem envEmpty ⟨[]⟩ (GetItemArg.nameArg "numpy")
      = (Except.ok Option.none, ⟨[]⟩, [CapCall.importCall "numpy"])
    ∧ ExternalVersions.contains ⟨[]⟩ "numpy" = false
    ∧ (ExternalVersions.getitem envEmpty
          (ExternalVersions.getitem envEmpty ⟨[]⟩ (GetItemArg.nameArg "numpy")).snd.fst
          (GetItemArg.nameArg "numpy")).snd.snd
        = [CapCall.importCall "numpy"] :=
  getitem_import_failure envEmpty ⟨[]⟩ "numpy" rfl rfl rfl

/-- C5: whenever resolution obtains a non-empty version string from an
attribute and the strict dotted-numeric grammar rejects it, the Loose
parser is used and the result is a Loose value, with the parse failure
never surfaced; in particular `"2021.08-beta"` yields a Loose version
distinct from the UNKNOWN sentinel. -/
theorem deduce_loose_fallback (meta : MetaCap) (name s : String) (va : Option PyVal)
    (hs : s ≠ "") (hp : strictParseChars s.data = Option.none) :
    deduceVersionL meta ⟨name, some (PyVal.str s), va⟩
      = (Except.ok (VersionValue.loose (LooseVersion.make s)), [])
    ∧ deduceVersionL meta ⟨"m", some (PyVal.str "2021.08-beta"), Option.none⟩
      = (Except.ok (VersionValue.loose (LooseVersion.make "2021.08-beta")), [])
    ∧ VersionValue.loose (LooseVersion.make "2021.08-beta") ≠ VersionValue.unknown := by
  refine ⟨?_, rfl, by decide⟩
  simp [deduceVersionL, probedAttr, joinSeq, pyTruthy, hs, hp, String.toList]

/-- C5 witness: the general Loose-fallback statement applied to the
concrete string `"2021.08-beta"` with a failing metadata capability. -/
theorem deduce_loose_fallback_witness :
    deduceVersionL metaFailCap ⟨"m", some (PyVal.str "2021.08-beta"), Option.none⟩
      = (Except.ok (VersionValue.loose (LooseVersion.make "2021.08-beta")), [])
    ∧ deduceVersionL metaFailCap ⟨"m", some (PyVal.str "2021.08-beta"), Option.none⟩
      = (Except.ok (VersionValue.loose (LooseVersion.make "2021.08-beta")), [])
    ∧ VersionValue.loose (LooseVersion.make "2021.08-beta") ≠ VersionValue.unknown :=
  deduce_loose_fallback metaFailCap "m" "2021.08-beta" Option.none (by decide) (by decide)

/-- C6: with no usable version attribute, resolution queries the
metadata capability exactly once, on the aliased name — `citeproc` maps
to `citeproc-py`, every other name to itself — and a metadata failure
is swallowed, yielding the UNKNOWN sentinel. -/
theorem deduce_metadata_fallback (meta : MetaCap) (m : PyModule) (n : String)
    (h : pyTruthy (joinSeq (probedAttr m)) = false) (hn : n ≠ "citeproc") :
    (deduceVersionL meta m).snd = [CapCall.metaCall (distAlias m.name)]
    ∧ (meta (distAlias m.name) = Except.error ()
        → (deduceVersionL meta m).fst = Except.ok VersionValue.unknown)
    ∧ distAlias "citeproc" = "citeproc-py"
    ∧ distAlias n = n := by
  refine ⟨deduceL_falsy_snd meta m h, fun he => deduceL_falsy_meta_error meta m h he,
    rfl, ?_⟩
  simp [distAlias, hn]

/-- C6 witness: a `citeproc` handle without version attributes, with a
metadata capability failing on all names, queries `citeproc-py` and
resolves to UNKNOWN. -/
theorem deduce_metadata_fallback_witness :
    (deduceVersionL metaFailCap ⟨"citeproc", Option.none, Option.none⟩).snd
      = [CapCall.metaCall (distAlias "citeproc")]
    ∧ (metaFailCap (distAlias "citeproc") = Except.error ()
        → (deduceVersionL metaFailCap ⟨"citeproc", Option.none, Option.none⟩).fst
            = Except.ok VersionValue.unknown)
    ∧ distAlias "citeproc" = "citeproc-py"
    ∧ distAlias "numpy" = "numpy" :=
  deduce_metadata_fallback metaFailCap ⟨"citeproc", Option.none, Option.none⟩ "numpy"
    (by decide) (by decide)

/-- C7: a tuple or list version attribute is joined with dots into a
single string before parsing, so resolution of such a handle agrees
with resolution of the joined string; in particular `(1, 4, 2)` yields
the Strict version that strict-parsing `"1.4.2"` produces. -/
theorem deduce_tuple_join (meta : MetaCap) (name : String) (xs : List PyVal)
    (va : Option PyVal) :
    deduceVersionL meta ⟨name, some (PyVal.tuple xs), va⟩
      = deduceVersionL meta ⟨name, some (PyVal.str (joinSep "." (xs.map pyStr))), va⟩
    ∧ deduceVersionL meta ⟨name, some (PyVal.list xs), va⟩
      = deduceVersionL meta ⟨name, some (PyVal.str (joinSep "." (xs.map pyStr))), va⟩
    ∧ strictParseChars "1.4.2".data = some ⟨1, 4, 2, Option.none⟩
    ∧ deduceVersionL meta
          ⟨"m", some (PyVal.tuple [PyVal.int 1, PyVal.int 4, PyVal.int 2]), Option.none⟩
      = (Except.ok (VersionValue.strict ⟨1, 4, 2, Option.none⟩), []) := by
  refine ⟨?_, ?_, by decide, rfl⟩
  · simp [deduceVersionL, probedAttr, joinSeq]
  · simp [deduceVersionL, probedAttr, joinSeq]

/-- C10: the attribute-probing loop stops at the first present
attribute: with `__version__` present but falsy, resolution is
independent of the plain `version` attribute and goes straight to the
metadata fallback. -/
theorem probe_stops_at_first_attr (meta : MetaCap) (name : String) (v : PyVal)
    (va va2 : Option PyVal) (h : pyTruthy v = false) :
    deduceVersionL meta ⟨name, some v, va⟩ = deduceVersionL meta ⟨name, some v, va2⟩
    ∧ (deduceVersionL meta ⟨name, some v, va⟩).snd
        = [CapCall.metaCall (distAlias name)] := by
  constructor
  · simp [deduceVersionL, probedAttr]
  · exact deduceL_falsy_snd meta ⟨name, some v, va⟩ (joinSeq_falsy h)

/-- C10 witness: with `__version__ = ""` and `version = "1.2.3"`, the
string on the `version` attribute is ignored (any other value there
gives the same outcome) and the metadata capability is consulted. -/
theorem probe_stops_at_first_attr_witness :
    deduceVersionL metaFailCap ⟨"m", some (PyVal.str ""), some (PyVal.str "1.2.3")⟩
      = deduceVersionL metaFailCap ⟨"m", some (PyVal.str ""), Option.none⟩
    ∧ (deduceVersionL metaFailCap ⟨"m", some (PyVal.str ""), some (PyVal.str "1.2.3")⟩).snd
        = [CapCall.metaCall (distAlias "m")] :=
  probe_stops_at_first_attr metaFailCap "m" (PyVal.str "") (some (PyVal.str "1.2.3"))
    Option.none (by decide)

/-- C2 counterexample: resolution is not total on every handle — a
truthy version attribute that is neither a string nor a sequence (here
the integer 1) makes `StrictVersion(version)` raise a `TypeError`,
which `_deduce_version` does not catch (only `ValueError` is), so the
error propagates to the caller instead of degrading. -/
theorem deduce_raises_on_int_attr :
    deduceVersion metaFailCap ⟨"m", some (PyVal.int 1), Option.none⟩
      = Except.error (PyError.typeError "expected string or bytes-like object")
    ∧ ExternalVersions.getitem envEmpty ⟨[]⟩
        (GetItemArg.moduleArg ⟨"m", some (PyVal.int 1), Option.none⟩)
      = (Except.error (PyError.typeError "expected string or bytes-like object"), ⟨[]⟩, []) :=
  ⟨rfl, rfl⟩

/-- Safety condition on the probed attribute value under which
resolution cannot raise: any value except a truthy non-string
non-sequence one (the only integer allowed is 0, which is falsy). -/
def attrSafe : PyVal → Prop
  | PyVal.int n => n = 0
  | _ => True

/-- Whether resolution returned a value rather than raising. -/
def resolutionOk : Except PyError VersionValue → Bool
  | Except.ok _ => true
  | Except.error _ => false

/-- C2 (amended): resolution never raises provided the probed version
attribute is absent, falsy, a string, or a sequence; under that
condition metadata-lookup failures and strict-parse failures degrade to
the UNKNOWN sentinel or to a parsed version.  (The unamended claim
fails: a truthy non-string non-sequence attribute value raises, see the
counterexample.) -/
theorem deduce_total_on_safe_attrs (meta : MetaCap) (m : PyModule)
    (h : attrSafe (probedAttr m)) :
    resolutionOk (deduceVersionL meta m).fst = true := by
  have hcase : (∃ s, joinSeq (probedAttr m) = PyVal.str s)
      ∨ pyTruthy (joinSeq (probedAttr m)) = false := by
    cases hp : probedAttr m with
    | none => exact Or.inr rfl
    | str s => exact Or.inl ⟨s, rfl⟩
    | int n =>
      rw [hp] at h
      simp only [attrSafe] at h
      subst h
      exact Or.inr rfl
    | tuple xs => exact Or.inl ⟨_, rfl⟩
    | list xs => exact Or.inl ⟨_, rfl⟩
  rcases hcase with ⟨s, hs⟩ | hfalse
  · by_cases ht : pyTruthy (PyVal.str s) = true
    · cases hp : strictParseChars s.data <;>
        simp [deduceVersionL, hs, ht, hp, String.toList, resolutionOk]
    · cases hm : meta (distAlias m.name) with
      | ok s2 =>
        by_cases ht2 : pyTruthy (PyVal.str s2) = true
        · cases hp2 : strictParseChars s2.data <;>
            simp [deduceVersionL, hs, ht, hm, ht2, hp2, String.toList, resolutionOk]
        · simp [deduceVersionL, hs, ht, hm, ht2, resolutionOk]
      | error e => simp [deduceVersionL, hs, ht, hm, resolutionOk]
  · cases hm : meta (distAlias m.name) with
    | ok s2 =>
      by_cases ht2 : pyTruthy (PyVal.str s2) = true
      · cases hp2 : strictParseChars s2.data <;>
          simp [deduceVersionL, hfalse, hm, ht2, hp2, String.toList, resolutionOk]
      · simp [deduceVersionL, hfalse, hm, ht2, resolutionOk]
    | error e => simp [deduceVersionL, hfalse, hm, resolutionOk]

/-- C2 witness: resolution succeeds on a handle whose version attribute
is the string `"1.2.3"`, with a failing metadata capability. -/
theorem deduce_total_on_safe_attrs_witness :
    resolutionOk (deduceVersionL metaFailCap
        ⟨"m", some (PyVal.str "1.2.3"), Option.none⟩).fst = true :=
  deduce_total_on_safe_attrs metaFailCap ⟨"m", some (PyVal.str "1.2.3"), Option.none⟩
    trivial

theorem joinSep_shift (ls ind : String) :
    ∀ (rest : List String) (x : String),
      joinSep (ls ++ ind) (x :: rest) ++ ls
        = x ++ ls ++ concatStrs (rest.map (fun it => ind ++ it ++ ls)) := by
  intro rest
  induction rest with
  | nil =>
    intro x
    simp [joinSep, concatStrs, String.append_empty]
  | cons i rest ih =>
    intro x
    show (x ++ (ls ++ ind) ++ joinSep (ls ++ ind) (i :: rest)) ++ ls = _
    rw [String.append_assoc (x ++ (ls ++ ind)), ih i]
    simp [concatStrs, String.append_assoc]

theorem joinSep_empty_shift (ls ind : String) (items : List String) :
    joinSep (ls ++ ind) ("" :: items) ++ ls
      = ls ++ concatStrs (items.map (fun it => ind ++ it ++ ls)) := by
  cases items with
  | nil => simp [joinSep, concatStrs, String.append_empty, String.empty_append]
  | cons i rest =>
    show ("" ++ (ls ++ ind) ++ joinSep (ls ++ ind) (i :: rest)) ++ ls = _
    rw [String.empty_append, String.append_assoc ls ind, String.append_assoc ls,
      String.append_assoc ind, joinSep_shift ls ind rest i]
    simp [concatStrs, String.append_assoc]

/-- C8 (amended): `dumps` renders exactly as the specification words it
— falsy `indent` gives the preamble plus space-joined sorted
`name=version` entries; truthy `indent` gives the preamble plus one
line per sorted entry, each prefixed with the indent string (a single
space for the plain boolean) and terminated by the line terminator —
except that a Strict version with zero patch component prints without
it: the cache `{a: Strict("1.0.0"), b: Unknown}` renders `a=1.0`, not
`a=1.0.0`. -/
theorem dumps_matches_spec (st : RegistryState) (linesep : String) (indent : IndentArg)
    (preamble : String) :
    ExternalVersions.dumps st linesep indent preamble = dumpsSpec st linesep indent preamble
    ∧ ExternalVersions.dumps
          ⟨[("a", VersionValue.strict ⟨1, 0, 0, Option.none⟩), ("b", VersionValue.unknown)]⟩
          "\n" (IndentArg.ofBool true) "Versions:"
        = "Versions:" ++ "\n" ++ " a=1.0" ++ "\n" ++ " b=UNKNOWN" ++ "\n" := by
  constructor
  · unfold ExternalVersions.dumps dumpsSpec
    cases ht : indent.truthy
    · simp
    · simp only [if_pos rfl, if_true]
      rw [String.append_assoc preamble, joinSep_empty_shift linesep indent.indentStr,
        String.append_assoc preamble]
  · rfl

/-- C8 counterexample: the specification's concrete example output is
not what the code produces — the entry for a Strict version parsed from
`"1.0.0"` renders as `a=1.0` (zero patch omitted by
`StrictVersion.__str__`), not `a=1.0.0`. -/
theorem dumps_example_counterexample :
    strictParseChars "1.0.0".data = some ⟨1, 0, 0, Option.none⟩
    ∧ ExternalVersions.dumps
          ⟨[("a", VersionValue.strict ⟨1, 0, 0, Option.none⟩), ("b", VersionValue.unknown)]⟩
          "\n" (IndentArg.ofBool true) "Versions:"
        = "Versions:" ++ "\n" ++ " a=1.0" ++ "\n" ++ " b=UNKNOWN" ++ "\n"
    ∧ ("Versions:" ++ "\n" ++ " a=1.0" ++ "\n" ++ " b=UNKNOWN" ++ "\n")
        ≠ ("Versions:" ++ "\n" ++ " a=1.0.0" ++ "\n" ++ " b=UNKNOWN" ++ "\n") := by
  refine ⟨by decide, rfl, by decide⟩

theorem getD_append_left {α : Type} (l l2 : List α) (d : α) (i : Nat)
    (h : i < l.length) : (l ++ l2).getD i d = l.getD i d := by
  simp [List.getD, List.getElem?_append, h]

theorem getD_append_at_length {α : Type} (l : List α) (x d : α) :
    (l ++ [x]).getD l.length d = x := by
  simp [List.getD, List.getElem?_append_right (Nat.le_refl _)]

theorem getD_set_ne {α : Type} (l : List α) (j : Nat) (x d : α) (i : Nat)
    (h : i ≠ j) : (l.set j x).getD i d = l.getD i d := by
  simp [List.getD, List.getElem?_set_ne (Ne.symm h)]

/-- C9: the `versions` property hands out a fresh dict object with the
same contents as the registry's cache; mutating that snapshot object —
writing any contents into it — leaves the registry's own dict
unchanged, so `contains` and lookup afterwards behave as if the
snapshot had never been touched. -/
theorem versions_snapshot_frame (h : DictHeap) (regRef : Nat)
    (d : List (String × VersionValue)) (name : String) (env : Env) (arg : GetItemArg)
    (hv : regRef < h.cells.length) :
    (ExternalVersions.versionsProp h regRef).fst.read
        (ExternalVersions.versionsProp h regRef).snd = h.read regRef
    ∧ (ExternalVersions.versionsProp h regRef).snd ≠ regRef
    ∧ ExternalVersions.contains
          ⟨((ExternalVersions.versionsProp h regRef).fst.write
              (ExternalVersions.versionsProp h regRef).snd d).read regRef⟩ name
        = ExternalVersions.contains ⟨h.read regRef⟩ name
    ∧ ExternalVersions.getitem env
          ⟨((ExternalVersions.versionsProp h regRef).fst.write
              (ExternalVersions.versionsProp h regRef).snd d).read regRef⟩ arg
        = ExternalVersions.getitem env ⟨h.read regRef⟩ arg := by
  have hkey : ((ExternalVersions.versionsProp h regRef).fst.write
      (ExternalVersions.versionsProp h regRef).snd d).read regRef = h.read regRef := by
    show ((h.cells ++ [h.read regRef]).set h.cells.length d).getD regRef []
      = h.cells.getD regRef []
    rw [getD_set_ne _ _ _ _ _ (Nat.ne_of_lt hv)]
    exact getD_append_left _ _ _ _ hv
  refine ⟨?_, ?_, ?_, ?_⟩
  · exact getD_append_at_length h.cells (h.read regRef) []
  · exact (Nat.ne_of_lt hv).symm
  · rw [hkey]
  · rw [hkey]

/-- C9 witness: a heap holding one registry dict with a cached entry
for `a`; the snapshot is fresh, and overwriting the snapshot with the
empty dict changes neither `contains` nor lookup on the registry. -/
theorem versions_snapshot_frame_witness :
    (ExternalVersions.versionsProp ⟨[[("a", VersionValue.unknown)]]⟩ 0).fst.read
        (ExternalVersions.versionsProp ⟨[[("a", VersionValue.unknown)]]⟩ 0).snd
      = DictHeap.read ⟨[[("a", VersionValue.unknown)]]⟩ 0
    ∧ (ExternalVersions.versionsProp ⟨[[("a", VersionValue.unknown)]]⟩ 0).snd ≠ 0
    ∧ ExternalVersions.contains
          ⟨((ExternalVersions.versionsProp ⟨[[("a", VersionValue.unknown)]]⟩ 0).fst.write
              (ExternalVersions.versionsProp ⟨[[("a", VersionValue.unknown)]]⟩ 0).snd []).read 0⟩
          "a"
        = ExternalVersions.contains ⟨DictHeap.read ⟨[[("a", VersionValue.unknown)]]⟩ 0⟩ "a"
    ∧ ExternalVersions.getitem envEmpty
          ⟨((ExternalVersions.versionsProp ⟨[[("a", VersionValue.unknown)]]⟩ 0).fst.write
              (ExternalVersions.versionsProp ⟨[[("a", VersionValue.unknown)]]⟩ 0).snd []).read 0⟩
          (GetItemArg.nameArg "a")
        = ExternalVersions.getitem envEmpty ⟨DictHeap.read ⟨[[("a", VersionValue.unknown)]]⟩ 0⟩
            (GetItemArg.nameArg "a") :=
  versions_snapshot_frame ⟨[[("a", VersionValue.unknown)]]⟩ 0 [] "a" envEmpty
    (GetItemArg.nameArg "a") (by decide)
